import Mathlib

/-!
Verification of the llmp proxy (main.go): a shallow embedding of the
request-routing-and-streaming-relay pipeline, followed by theorems about
its authentication, body-rewrite, dispatch and relay behavior.

Strings are modelled by Lean `String`, viewed through the `data` field
(one `Char` per byte position; all inputs of interest are ASCII so the
byte/rune distinction does not matter here). An absent HTTP header is
the empty string, exactly as `http.Header.Get` reports it in Go.
-/

/-! ## Go string helpers (strings.HasPrefix / TrimPrefix / TrimSuffix / ToLower) -/

/-- Character-list version of Go strings.HasPrefix. -/
def isPre : List Char → List Char → Bool
  | [], _ => true
  | _ :: _, [] => false
  | a :: as, b :: bs => a = b && isPre as bs

/-- Embedding of Go strings.HasPrefix. -/
def hasPre (p s : String) : Bool := isPre p.data s.data

/-- Embedding of Go strings.TrimPrefix: drop the leading occurrence when present,
otherwise return the string unchanged. -/
def trimPre (p s : String) : String :=
  if hasPre p s then ⟨s.data.drop p.data.length⟩ else s

/-- Embedding of Go strings.HasSuffix. -/
def hasSuf (suf s : String) : Bool := isPre suf.data.reverse s.data.reverse

/-- Embedding of Go strings.TrimSuffix. -/
def trimSuf (suf s : String) : String :=
  if hasSuf suf s then ⟨s.data.take (s.data.length - suf.data.length)⟩ else s

/-- ASCII lowercasing of one character, as Go strings.ToLower acts on ASCII. -/
def charLower (c : Char) : Char :=
  if 'A' ≤ c ∧ c ≤ 'Z' then Char.ofNat (c.toNat + 32) else c

/-- Embedding of Go strings.ToLower (ASCII fragment, which covers every header
name and boolean literal the program compares). -/
def lowerGo (s : String) : String := ⟨s.data.map charLower⟩

/-! ## JSON values and bodies

A request body is modelled as the parsed top-level JSON object: an ordered
list of fields.  The order of the list records the byte order of the fields
in the raw body, so "preserving the original byte structure" is modelled as
preserving the list up to the one patched value. -/

/-- A JSON value as gjson classifies it: null, boolean, number, string, or
nested raw JSON. Numbers are modelled as integers (the program only compares
them with zero and the empty string). -/
inductive JVal where
  | jnull
  | jbool (b : Bool)
  | jnum (n : Int)
  | jstr (s : String)
  | jraw (raw : String)
deriving DecidableEq

/-- A JSON body: the ordered field list of the top-level object. -/
abbrev Body := List (String × JVal)

/-- Model of gjson.GetBytes(body, key): the first field with the given key. -/
def getField (b : Body) (k : String) : Option JVal :=
  (b.find? (fun p => p.1 == k)).map (fun p => p.2)

/-- Model of gjson Result.String(): missing and null coerce to the empty
string, booleans and numbers to their literals, strings to themselves. -/
def jvalString : Option JVal → String
  | none => ""
  | some JVal.jnull => ""
  | some (JVal.jbool true) => "true"
  | some (JVal.jbool false) => "false"
  | some (JVal.jnum n) => toString n
  | some (JVal.jstr s) => s
  | some (JVal.jraw raw) => raw

/-- Model of Go strconv.ParseBool with the error swallowed (gjson passes the
already-lowercased string and keeps the boolean, which is false on error). -/
def parseBoolGo (s : String) : Bool := s == "1" || s == "t" || s == "true"

/-- Model of gjson Result.Bool(): true for boolean true, nonzero numbers, and
strings that ParseBool accepts after lowercasing; false otherwise. -/
def jvalBool : Option JVal → Bool
  | some (JVal.jbool b) => b
  | some (JVal.jnum n) => n != 0
  | some (JVal.jstr s) => parseBoolGo (lowerGo s)
  | _ => false

/-- Modelled from the spec: sjson.SetBytes is a third-party dependency whose
source is not part of this repository.  Per the spec it performs a
field-level patch: the value of the first field with the given key is
replaced in place, every other field and the field order are preserved, and
a missing key is appended at the end of the object. -/
def setFirst : Body → String → JVal → Body
  | [], k, v => [(k, v)]
  | (k0, v0) :: rest, k, v =>
    if k0 = k then (k0, v) :: rest else (k0, v0) :: setFirst rest k v

/-! ## Configuration (main.go lines 18-61) -/

structure LitellmParams where
  model : String
  apiBase : String
  apiKey : String
deriving DecidableEq

structure ModelConfig where
  modelName : String
  litellmParams : LitellmParams
deriving DecidableEq

/-- Lookup in the routing table built by loadConfig: the map is filled by
iterating the configured list and inserting by model name, so a duplicate
name keeps the last entry.  Lookup is exact-match on the full name. -/
def resolve (l : List ModelConfig) (name : String) : Option ModelConfig :=
  l.reverse.find? (fun c => c.modelName == name)

/-- Embedding of isAnthropicModel (main.go lines 63-65). -/
def isAnthropicModel (modelName : String) : Bool :=
  hasPre "anthropic/" modelName

/-! ## Authentication (main.go lines 67-92) -/

inductive AuthResult where
  | allowed
  | rejected (status : Nat) (msg : String)
deriving DecidableEq

/-- Embedding of authMiddleware: `authHeader` and `xApiKey` are the values of
the Authorization and x-api-key request headers, with absence represented by
the empty string as Go http.Header.Get reports it. -/
def authMiddleware (authToken authHeader xApiKey : String) : AuthResult :=
  if authToken = "" then AuthResult.allowed
  else
    let hdr := if authHeader = "" then xApiKey else authHeader
    let token := if authHeader = "" then xApiKey else trimPre "Bearer " authHeader
    if hdr = "" then AuthResult.rejected 401 "Authorization or x-api-key header required"
    else if token ≠ authToken then AuthResult.rejected 401 "Invalid token"
    else AuthResult.allowed

/-- The credential the middleware ends up comparing against the secret: the
Authorization header with a leading "Bearer " stripped when that header is
present, otherwise the x-api-key header, otherwise nothing. -/
def credential (authHeader xApiKey : String) : Option String :=
  if authHeader ≠ "" then some (trimPre "Bearer " authHeader)
  else if xApiKey ≠ "" then some xApiKey
  else none

/-! ## Client-visible events and the upstream relay (main.go lines 94-222) -/

/-- One observable effect on the client response writer, in order of
occurrence: header addition, status write, body write, flush, or the
status-plus-message pair emitted by Go http.Error. -/
inductive ClientEvent where
  | addHeader (k v : String)
  | writeStatus (code : Nat)
  | write (s : String)
  | flush
  | httpError (code : Nat) (msg : String)
deriving DecidableEq

/-- An upstream HTTP response: status, headers (each key with its value
list), and the raw body. -/
structure UpstreamResp where
  statusCode : Nat
  headers : List (String × List String)
  body : String
deriving DecidableEq

/-- Result of client.Do: either a network-level failure or a response. -/
inductive UpstreamResult where
  | failure
  | success (resp : UpstreamResp)

/-- Embedding of the header-copy loop (main.go lines 167-179): every upstream
header is copied, except that for streaming responses keys lowercasing to
content-length or transfer-encoding are skipped. -/
def copyHeaders (isStream : Bool) (hs : List (String × List String)) : List ClientEvent :=
  (hs.filter (fun p =>
      !(isStream && (lowerGo p.1 == "content-length" || lowerGo p.1 == "transfer-encoding")))).flatMap
    (fun p => p.2.map (fun v => ClientEvent.addHeader p.1 v))

/-- Embedding of the dropCR step of bufio.ScanLines: remove one trailing
carriage return from a scanned token. -/
def dropCRL (l : List Char) : List Char :=
  if l.getLast? = some '\r' then l.dropLast else l

/-- The scanner buffer ceiling set at main.go line 196: 10 << 20 bytes. -/
def maxScanTokenSize : Nat := 10485760

/-- Embedding of the streaming loop (main.go lines 199-209) fused with the
bufio line scanner: characters are accumulated into `acc` (reversed) until a
newline, at which point the token (with one trailing carriage return
dropped, per bufio.ScanLines) is written followed by a single newline and a
flush.  A partial final token is emitted at end of input.  When a token
reaches `max` bytes without a newline the scanner fails with ErrTooLong and
the loop stops, which the code only logs (main.go lines 212-214). -/
def relayLoop (max : Nat) : List Char → List Char → List ClientEvent
  | [], acc =>
    if max ≤ acc.length then []
    else if acc.isEmpty then []
    else [ClientEvent.write ⟨dropCRL acc.reverse ++ ['\n']⟩, ClientEvent.flush]
  | c :: rest, acc =>
    if max ≤ acc.length then []
    else if c = '\n' then
      ClientEvent.write ⟨dropCRL acc.reverse ++ ['\n']⟩ :: ClientEvent.flush ::
        relayLoop max rest []
    else relayLoop max rest (c :: acc)

/-- The streaming relay applied to a whole upstream body. -/
def relayStream (body : String) : List ClientEvent :=
  relayLoop maxScanTokenSize body.data []

/-- Embedding of the response-relay tail of proxyToUpstream (main.go lines
159-222): on a network failure http.Error writes a 502 before any upstream
data is touched; on success the headers are copied, then the status, then
the body (line-relayed when streaming, copied verbatim otherwise). -/
def handleUpstream (isStream : Bool) (result : UpstreamResult) : List ClientEvent :=
  match result with
  | UpstreamResult.failure => [ClientEvent.httpError 502 "Error forwarding request"]
  | UpstreamResult.success resp =>
    copyHeaders isStream resp.headers ++ [ClientEvent.writeStatus resp.statusCode] ++
      (if isStream then relayStream resp.body else [ClientEvent.write resp.body])

/-- Decision reached by proxyToUpstream before the outbound call: either an
error response, or a forward with the rewritten body, destination URL,
stream flag and upstream API key. -/
inductive ProxyDecision where
  | clientError (status : Nat) (msg : String)
  | forward (modifiedBody : Body) (upstreamURL : String) (isStream : Bool) (apiKey : String)
deriving DecidableEq

/-- Embedding of the pre-dispatch stage of proxyToUpstream (main.go lines
101-157): extract the model, reject when empty, resolve it, reject
non-Anthropic routes, patch the body with the provider-stripped upstream
model, build the URL, and read the stream flag from the original body. -/
def proxyDecide (configs : List ModelConfig) (body : Body) (path : String) : ProxyDecision :=
  let modelName := jvalString (getField body "model")
  if modelName = "" then ProxyDecision.clientError 400 "Model field is required"
  else
    match resolve configs modelName with
    | none => ProxyDecision.clientError 400 "Model not found"
    | some config =>
      if ¬ isAnthropicModel config.litellmParams.model then
        ProxyDecision.clientError 400 "OpenAI models should use /chat/completions endpoint"
      else
        let newModel :=
          if isAnthropicModel config.litellmParams.model then
            trimPre "anthropic/" config.litellmParams.model
          else
            trimPre "openai/" config.litellmParams.model
        let modifiedBody := setFirst body "model" (JVal.jstr newModel)
        let upstreamURL := trimSuf "/" config.litellmParams.apiBase ++ path
        let isStream := jvalBool (getField body "stream")
        ProxyDecision.forward modifiedBody upstreamURL isStream config.litellmParams.apiKey

/-- The full handler, with the network abstracted as a function from the
forwarded request (URL, rewritten body, stream flag, API key) to the
upstream result. -/
def proxyToUpstream (configs : List ModelConfig) (body : Body) (path : String)
    (upstream : String → Body → Bool → String → UpstreamResult) : List ClientEvent :=
  match proxyDecide configs body path with
  | ProxyDecision.clientError status msg => [ClientEvent.httpError status msg]
  | ProxyDecision.forward mb url st key => handleUpstream st (upstream url mb st key)

/-! ## String lemmas -/

theorem isPre_append (p s : List Char) : isPre p (p ++ s) = true := by
  induction p with
  | nil => rfl
  | cons a as ih => simp [isPre, ih]

theorem trimPre_append (p s : String) : trimPre p (p ++ s) = s := by
  unfold trimPre hasPre
  rw [String.data_append, isPre_append, if_pos rfl, List.drop_left]

theorem trimPre_of_not_pre (p s : String) (h : hasPre p s = false) : trimPre p s = s := by
  unfold trimPre
  rw [h]
  simp

theorem bearer_append_ne_empty (s : String) : ("Bearer " ++ s) ≠ "" := by
  intro h
  have hlen : ("Bearer " ++ s).length = 0 := by rw [h]; rfl
  rw [String.length_append] at hlen
  have h7 : ("Bearer " : String).length = 7 := rfl
  omega

/-! ## Claim theorems: authentication -/

/-- Claim C1: with a non-empty shared secret, a request whose Authorization
header is exactly "Bearer " followed by the secret is allowed; a request
with no Authorization header and x-api-key equal to the secret is allowed;
a request with neither header is rejected 401 with the required-header
message; and a request whose extracted credential differs from the secret
is rejected 401 with the invalid-token message. -/
theorem claim_C1 (secret auth key : String) (hs : secret ≠ "") :
    (auth = "Bearer " ++ secret → authMiddleware secret auth key = AuthResult.allowed) ∧
    (auth = "" → key = secret → authMiddleware secret auth key = AuthResult.allowed) ∧
    (auth = "" → key = "" →
      authMiddleware secret auth key =
        AuthResult.rejected 401 "Authorization or x-api-key header required") ∧
    (∀ c, credential auth key = some c → c ≠ secret →
      authMiddleware secret auth key = AuthResult.rejected 401 "Invalid token") := by
  refine ⟨?_, ?_, ?_, ?_⟩
  · intro h
    subst h
    simp [authMiddleware, hs, bearer_append_ne_empty, trimPre_append]
  · intro ha hk
    subst ha
    subst hk
    simp [authMiddleware, hs]
  · intro ha hk
    subst ha
    subst hk
    simp [authMiddleware, hs]
  · intro c hc hne
    by_cases ha : auth = ""
    · by_cases hk : key = ""
      · simp [credential, ha, hk] at hc
      · simp [credential, ha, hk] at hc
        subst hc
        simp [authMiddleware, hs, ha, hk, hne]
    · simp [credential, ha] at hc
      subst hc
      simp [authMiddleware, hs, ha, hne]

theorem claim_C1_witness :
    ("s" : String) ≠ "" ∧
    authMiddleware "s" ("Bearer " ++ "s") "x" = AuthResult.allowed ∧
    authMiddleware "s" "" "s" = AuthResult.allowed ∧
    authMiddleware "s" "" "" =
      AuthResult.rejected 401 "Authorization or x-api-key header required" ∧
    authMiddleware "s" "Bearer t" "" = AuthResult.rejected 401 "Invalid token" :=
  ⟨by decide,
   (claim_C1 "s" ("Bearer " ++ "s") "x" (by decide)).1 rfl,
   (claim_C1 "s" "" "s" (by decide)).2.1 rfl rfl,
   (claim_C1 "s" "" "" (by decide)).2.2.1 rfl rfl,
   (claim_C1 "s" "Bearer t" "" (by decide)).2.2.2 "t" (by decide) (by decide)⟩

/-- Claim C9: when Authorization is present without the Bearer marker the
whole raw value is the compared credential, so the bare secret in
Authorization is allowed, and a present Authorization header makes the
middleware ignore x-api-key entirely. -/
theorem claim_C9 (secret auth key key2 : String) (hs : secret ≠ "") :
    (auth ≠ "" → hasPre "Bearer " auth = false →
      (authMiddleware secret auth key = AuthResult.allowed ↔ auth = secret)) ∧
    (hasPre "Bearer " secret = false → authMiddleware secret secret key = AuthResult.allowed) ∧
    (auth ≠ "" → authMiddleware secret auth key = authMiddleware secret auth key2) := by
  refine ⟨?_, ?_, ?_⟩
  · intro ha hb
    rw [show authMiddleware secret auth key =
        (if auth ≠ secret then AuthResult.rejected 401 "Invalid token"
         else AuthResult.allowed) by
      simp [authMiddleware, hs, ha, trimPre_of_not_pre _ _ hb]]
    by_cases h : auth = secret
    · simp [h]
    · simp [h]
  · intro hb
    simp [authMiddleware, hs, trimPre_of_not_pre _ _ hb]
  · intro ha
    simp [authMiddleware, hs, ha]

theorem claim_C9_witness :
    ("s" : String) ≠ "" ∧
    (authMiddleware "s" "w" "x" = AuthResult.allowed ↔ ("w" : String) = "s") ∧
    authMiddleware "s" "s" "x" = AuthResult.allowed ∧
    authMiddleware "s" "z" "s" = authMiddleware "s" "z" "other" :=
  ⟨by decide,
   (claim_C9 "s" "w" "x" "x" (by decide)).1 (by decide) (by decide),
   (claim_C9 "s" "s" "x" "x" (by decide)).2.1 (by decide),
   (claim_C9 "s" "z" "s" "other" (by decide)).2.2 (by decide)⟩

/-! ## Body lemmas -/

theorem find?_key_pre (pre post : Body) (v : JVal) (k : String)
    (hpre : ∀ p ∈ pre, p.1 ≠ k) :
    List.find? (fun p => p.1 == k) (pre ++ (k, v) :: post) = some (k, v) := by
  induction pre with
  | nil => simp [List.find?]
  | cons a as ih =>
    have hb : (a.1 == k) = false := by simpa using hpre a (by simp)
    simp only [List.cons_append, List.find?, hb]
    exact ih (fun p hp => hpre p (by simp [hp]))

theorem getField_pre (pre post : Body) (v : JVal) (k : String)
    (hpre : ∀ p ∈ pre, p.1 ≠ k) :
    getField (pre ++ (k, v) :: post) k = some v := by
  unfold getField
  rw [find?_key_pre pre post v k hpre]
  rfl

theorem setFirst_pre (pre post : Body) (v w : JVal) (k : String)
    (hpre : ∀ p ∈ pre, p.1 ≠ k) :
    setFirst (pre ++ (k, v) :: post) k w = pre ++ (k, w) :: post := by
  induction pre with
  | nil => simp [setFirst]
  | cons a as ih =>
    have ha : a.1 ≠ k := hpre a (by simp)
    have ih2 := ih (fun p hp => hpre p (by simp [hp]))
    obtain ⟨a1, a2⟩ := a
    simp only [List.cons_append, setFirst, if_neg ha]
    exact congrArg (fun t => (a1, a2) :: t) ih2

theorem trimPre_eq_drop (p s : String) (h : hasPre p s = true) :
    trimPre p s = ⟨s.data.drop p.length⟩ := by
  unfold trimPre
  rw [h]
  rfl

/-- A concrete network oracle that always fails; used by witnesses. -/
def failUpstream : String → Body → Bool → String → UpstreamResult :=
  fun _ _ _ _ => UpstreamResult.failure

/-! ## Claim theorems: rewrite pipeline -/

/-- Claim C2: when the model of a body resolves to a route whose upstream
model carries the anthropic/ marker, the body sent upstream is the inbound
field list with only the model value replaced by the stripped upstream
model; every other field, and the field order, is preserved. -/
theorem claim_C2 (configs : List ModelConfig) (pre post : Body) (v : JVal)
    (path : String) (cfg : ModelConfig)
    (hpre : ∀ p ∈ pre, p.1 ≠ "model")
    (hname : jvalString (some v) ≠ "")
    (hres : resolve configs (jvalString (some v)) = some cfg)
    (hanth : isAnthropicModel cfg.litellmParams.model = true) :
    proxyDecide configs (pre ++ ("model", v) :: post) path =
      ProxyDecision.forward
        (pre ++ ("model", JVal.jstr (trimPre "anthropic/" cfg.litellmParams.model)) :: post)
        (trimSuf "/" cfg.litellmParams.apiBase ++ path)
        (jvalBool (getField (pre ++ ("model", v) :: post) "stream"))
        cfg.litellmParams.apiKey := by
  have hg := getField_pre pre post v "model" hpre
  have hset := setFirst_pre pre post v
    (JVal.jstr (trimPre "anthropic/" cfg.litellmParams.model)) "model" hpre
  simp [proxyDecide, hg, hname, hres, hanth, hset]

theorem claim_C2_witness :
    proxyDecide [⟨"m", ⟨"anthropic/claude-3-opus", "http://u", "k"⟩⟩]
        ([("a", JVal.jnum 1)] ++ ("model", JVal.jstr "m") :: [("stream", JVal.jbool true)])
        "/v1/messages" =
      ProxyDecision.forward
        ([("a", JVal.jnum 1)] ++
          ("model", JVal.jstr (trimPre "anthropic/" "anthropic/claude-3-opus")) ::
            [("stream", JVal.jbool true)])
        (trimSuf "/" "http://u" ++ "/v1/messages")
        (jvalBool (getField
          ([("a", JVal.jnum 1)] ++ ("model", JVal.jstr "m") :: [("stream", JVal.jbool true)])
          "stream"))
        "k" :=
  claim_C2 [⟨"m", ⟨"anthropic/claude-3-opus", "http://u", "k"⟩⟩]
    [("a", JVal.jnum 1)] [("stream", JVal.jbool true)] (JVal.jstr "m") "/v1/messages"
    ⟨"m", ⟨"anthropic/claude-3-opus", "http://u", "k"⟩⟩
    (by decide) (by decide) (by decide) (by decide)

/-- Claim C10: whenever the handler reaches the body-rewrite step (the
decision is a forward), the resolved route is Anthropic-classified, and the
substituted model value is the suffix of the configured upstream model after
the anthropic/ marker, so the openai-stripping branch never contributes. -/
theorem claim_C10 (configs : List ModelConfig) (body : Body) (path : String)
    (mb : Body) (url : String) (st : Bool) (k : String) (cfg : ModelConfig)
    (hres : resolve configs (jvalString (getField body "model")) = some cfg)
    (hfwd : proxyDecide configs body path = ProxyDecision.forward mb url st k) :
    isAnthropicModel cfg.litellmParams.model = true ∧
    mb = setFirst body "model"
      (JVal.jstr ⟨cfg.litellmParams.model.data.drop ("anthropic/" : String).length⟩) := by
  by_cases h0 : jvalString (getField body "model") = ""
  · simp [proxyDecide, h0] at hfwd
  · by_cases hanth : isAnthropicModel cfg.litellmParams.model = true
    · refine ⟨hanth, ?_⟩
      rw [← trimPre_eq_drop "anthropic/" cfg.litellmParams.model hanth]
      simp [proxyDecide, h0, hres, hanth] at hfwd
      exact hfwd.1.symm
    · simp [proxyDecide, h0, hres, hanth] at hfwd

theorem claim_C10_witness :
    isAnthropicModel
        (⟨"m", ⟨"anthropic/claude-3-opus", "http://u", "k"⟩⟩ : ModelConfig).litellmParams.model
        = true ∧
    [("model", JVal.jstr "claude-3-opus")] =
      setFirst [("model", JVal.jstr "m")] "model"
        (JVal.jstr
          ⟨("anthropic/claude-3-opus" : String).data.drop ("anthropic/" : String).length⟩) :=
  claim_C10 [⟨"m", ⟨"anthropic/claude-3-opus", "http://u", "k"⟩⟩]
    [("model", JVal.jstr "m")] "/v1/messages"
    [("model", JVal.jstr "claude-3-opus")] "http://u/v1/messages" false "k"
    ⟨"m", ⟨"anthropic/claude-3-opus", "http://u", "k"⟩⟩
    (by decide) (by decide)

/-- Claim C3: a model that resolves to a route whose upstream model lacks
the anthropic/ marker is rejected with 400 and the redirect message; the
body is otherwise arbitrary and the result is the same for every network
oracle, so no upstream call is observable. -/
theorem claim_C3 (configs : List ModelConfig) (body : Body) (path : String)
    (upstream : String → Body → Bool → String → UpstreamResult) (cfg : ModelConfig)
    (hname : jvalString (getField body "model") ≠ "")
    (hres : resolve configs (jvalString (getField body "model")) = some cfg)
    (hna : isAnthropicModel cfg.litellmParams.model = false) :
    proxyToUpstream configs body path upstream =
      [ClientEvent.httpError 400 "OpenAI models should use /chat/completions endpoint"] := by
  simp [proxyToUpstream, proxyDecide, hname, hres, hna]

theorem claim_C3_witness :
    proxyToUpstream [⟨"m", ⟨"openai/gpt-4o", "http://u", "k"⟩⟩]
        [("model", JVal.jstr "m"), ("stream", JVal.jbool true)] "/v1/messages" failUpstream =
      [ClientEvent.httpError 400 "OpenAI models should use /chat/completions endpoint"] :=
  claim_C3 [⟨"m", ⟨"openai/gpt-4o", "http://u", "k"⟩⟩]
    [("model", JVal.jstr "m"), ("stream", JVal.jbool true)] "/v1/messages" failUpstream
    ⟨"m", ⟨"openai/gpt-4o", "http://u", "k"⟩⟩
    (by decide) (by decide) (by decide)

/-- Claim C6: a body whose model field is missing or the empty string is
rejected with 400 and the required-field message, for every routing table,
so the rejection cannot depend on any table lookup. -/
theorem claim_C6 (configs : List ModelConfig) (body : Body) (path : String)
    (upstream : String → Body → Bool → String → UpstreamResult)
    (h : getField body "model" = none ∨ getField body "model" = some (JVal.jstr "")) :
    proxyToUpstream configs body path upstream =
      [ClientEvent.httpError 400 "Model field is required"] := by
  have hname : jvalString (getField body "model") = "" := by
    rcases h with h | h <;> rw [h] <;> rfl
  simp [proxyToUpstream, proxyDecide, hname]

theorem claim_C6_witness :
    proxyToUpstream [⟨"m", ⟨"anthropic/claude-3-opus", "http://u", "k"⟩⟩]
        [("max_tokens", JVal.jnum 1024)] "/v1/messages" failUpstream =
      [ClientEvent.httpError 400 "Model field is required"] :=
  claim_C6 [⟨"m", ⟨"anthropic/claude-3-opus", "http://u", "k"⟩⟩]
    [("max_tokens", JVal.jnum 1024)] "/v1/messages" failUpstream
    (Or.inl (by decide))

/-- Claim C8: when the pre-dispatch stage decides to forward and the network
call fails, the client sees exactly the 502 bad-gateway error; no header,
status or body event derived from any upstream response precedes it. -/
theorem claim_C8 (configs : List ModelConfig) (body : Body) (path : String)
    (upstream : String → Body → Bool → String → UpstreamResult)
    (mb : Body) (url : String) (st : Bool) (k : String)
    (hdec : proxyDecide configs body path = ProxyDecision.forward mb url st k)
    (hfail : upstream url mb st k = UpstreamResult.failure) :
    proxyToUpstream configs body path upstream =
      [ClientEvent.httpError 502 "Error forwarding request"] := by
  simp [proxyToUpstream, hdec, hfail, handleUpstream]

theorem claim_C8_witness :
    proxyToUpstream [⟨"m", ⟨"anthropic/claude-3-opus", "http://u", "k"⟩⟩]
        [("model", JVal.jstr "m")] "/v1/messages" failUpstream =
      [ClientEvent.httpError 502 "Error forwarding request"] :=
  claim_C8 [⟨"m", ⟨"anthropic/claude-3-opus", "http://u", "k"⟩⟩]
    [("model", JVal.jstr "m")] "/v1/messages" failUpstream
    [("model", JVal.jstr "claude-3-opus")] "http://u/v1/messages" false "k"
    (by decide) rfl

/-! ## Claim theorems: stream flag -/

/-- Claim C5 counterexample: a body whose stream field is the JSON number 1
is not the boolean true, yet the extracted flag is true, because gjson
Result.Bool() coerces nonzero numbers; the claim says the flag should be
false whenever the value is not a boolean. -/
theorem claim_C5_counterexample :
    jvalBool (getField [("stream", JVal.jnum 1)] "stream") = true ∧
    getField [("stream", JVal.jnum 1)] "stream" ≠ some (JVal.jbool true) := by
  decide

/-- Claim C5 (amended): the extracted stream flag is true exactly when the
stream field holds the boolean true, a nonzero number, or a string that Go
ParseBool accepts as true after lowercasing; it is false when the field is
absent, null, false, zero, or any other string. -/
theorem claim_C5 (body : Body) :
    jvalBool (getField body "stream") = true ↔
      (getField body "stream" = some (JVal.jbool true) ∨
       (∃ n : Int, getField body "stream" = some (JVal.jnum n) ∧ n ≠ 0) ∨
       (∃ s : String, getField body "stream" = some (JVal.jstr s) ∧
          parseBoolGo (lowerGo s) = true)) := by
  cases hf : getField body "stream" with
  | none => simp [jvalBool]
  | some v =>
    cases v with
    | jnull => simp [jvalBool]
    | jbool b => cases b <;> simp [jvalBool]
    | jnum n => simp [jvalBool, bne_iff_ne]
    | jraw raw => simp [jvalBool]
    | jstr s => simp [jvalBool]

/-! ## Claim theorems: header relay -/

theorem relayLoop_no_addHeader (max : Nat) (k v : String) :
    ∀ (l acc : List Char), ClientEvent.addHeader k v ∉ relayLoop max l acc := by
  intro l
  induction l with
  | nil =>
    intro acc
    unfold relayLoop
    split_ifs <;> simp
  | cons c rest ih =>
    intro acc
    unfold relayLoop
    split_ifs with h1 h2
    · simp
    · simp [ih []]
    · exact ih (c :: acc)

theorem mem_copyHeaders (isStream : Bool) (hs : List (String × List String)) (k v : String) :
    ClientEvent.addHeader k v ∈ copyHeaders isStream hs ↔
      (∃ vs, (k, vs) ∈ hs ∧ v ∈ vs) ∧
        (isStream = true → lowerGo k ≠ "content-length" ∧ lowerGo k ≠ "transfer-encoding") := by
  constructor
  · intro h
    simp only [copyHeaders, List.mem_flatMap, List.mem_filter, List.mem_map] at h
    obtain ⟨⟨k0, vs⟩, ⟨hmem, hfil⟩, w, hw, heq⟩ := h
    simp only [ClientEvent.addHeader.injEq] at heq
    obtain ⟨hk, hv⟩ := heq
    subst hk
    subst hv
    refine ⟨⟨vs, hmem, hw⟩, ?_⟩
    intro hstr
    subst hstr
    simpa using hfil
  · rintro ⟨⟨vs, hmem, hv⟩, himp⟩
    simp only [copyHeaders, List.mem_flatMap, List.mem_filter, List.mem_map]
    refine ⟨(k, vs), ⟨hmem, ?_⟩, v, hv, rfl⟩
    cases isStream
    · simp
    · obtain ⟨h1, h2⟩ := himp rfl
      simp [h1, h2]

/-- Claim C7: for a streaming response an upstream header value reaches the
client exactly when it is present upstream and its key does not lowercase to
content-length or transfer-encoding; for a non-streaming response every
upstream header value reaches the client, those two keys included. -/
theorem claim_C7 (resp : UpstreamResp) (k v : String) :
    (ClientEvent.addHeader k v ∈ handleUpstream true (UpstreamResult.success resp) ↔
      ((∃ vs, (k, vs) ∈ resp.headers ∧ v ∈ vs) ∧
        lowerGo k ≠ "content-length" ∧ lowerGo k ≠ "transfer-encoding")) ∧
    (ClientEvent.addHeader k v ∈ handleUpstream false (UpstreamResult.success resp) ↔
      (∃ vs, (k, vs) ∈ resp.headers ∧ v ∈ vs)) := by
  constructor
  · rw [show handleUpstream true (UpstreamResult.success resp) =
        copyHeaders true resp.headers ++ [ClientEvent.writeStatus resp.statusCode] ++
          relayStream resp.body from rfl]
    simp only [List.mem_append, List.mem_singleton]
    constructor
    · rintro ((h | h) | h)
      · rw [mem_copyHeaders] at h
        exact ⟨h.1, h.2 rfl⟩
      · exact absurd h (by simp)
      · simp only [relayStream] at h
        exact absurd h (relayLoop_no_addHeader maxScanTokenSize k v _ [])
    · intro hgoal
      left
      left
      rw [mem_copyHeaders]
      exact ⟨hgoal.1, fun _ => hgoal.2⟩
  · rw [show handleUpstream false (UpstreamResult.success resp) =
        copyHeaders false resp.headers ++ [ClientEvent.writeStatus resp.statusCode] ++
          [ClientEvent.write resp.body] from rfl]
    simp only [List.mem_append, List.mem_singleton]
    constructor
    · rintro ((h | h) | h)
      · rw [mem_copyHeaders] at h
        exact h.1
      · exact absurd h (by simp)
      · exact absurd h (by simp)
    · intro hgoal
      left
      left
      rw [mem_copyHeaders]
      exact ⟨hgoal, fun hf => by cases hf⟩

/-! ## Claim theorems: streaming relay -/

theorem getLast_concat_char (l : List Char) (a : Char) : (l ++ [a]).getLast? = some a := by
  simp

theorem dropCRL_no_cr (l : List Char) (h : l.getLast? ≠ some '\r') : dropCRL l = l := by
  unfold dropCRL
  rw [if_neg h]

theorem relayLoop_step (max : Nat) (l : List Char) :
    ∀ (acc rest : List Char), '\n' ∉ l → acc.length + l.length < max →
      relayLoop max (l ++ '\n' :: rest) acc =
        ClientEvent.write ⟨dropCRL (acc.reverse ++ l) ++ ['\n']⟩ :: ClientEvent.flush ::
          relayLoop max rest [] := by
  induction l with
  | nil =>
    intro acc rest hn hlen
    simp only [List.length_nil, Nat.add_zero] at hlen
    simp only [List.nil_append, relayLoop, List.append_nil]
    rw [if_neg (by omega)]
    simp
  | cons c cs ih =>
    intro acc rest hn hlen
    have hc : ¬ (c = '\n') := fun h => hn (h ▸ List.mem_cons_self c cs)
    simp only [List.length_cons] at hlen
    simp only [List.cons_append, relayLoop]
    rw [if_neg (by omega), if_neg hc,
      show cs.append ('\n' :: rest) = cs ++ '\n' :: rest from rfl,
      ih (c :: acc) rest (fun h => hn (List.mem_cons_of_mem c h)) (by simp; omega)]
    simp [List.append_assoc]

theorem relayLoop_lines (lines : List (List Char))
    (h : ∀ l ∈ lines, '\n' ∉ l ∧ l.getLast? ≠ some '\r' ∧ l.length < maxScanTokenSize) :
    relayLoop maxScanTokenSize (lines.flatMap (fun l => l ++ ['\n'])) [] =
      lines.flatMap (fun l => [ClientEvent.write ⟨l ++ ['\n']⟩, ClientEvent.flush]) := by
  induction lines with
  | nil =>
    simp only [List.flatMap_nil, relayLoop]
    rw [if_neg (by simp [maxScanTokenSize])]
    rfl
  | cons l ls ih =>
    obtain ⟨hn, hcr, hlen⟩ := h l (by simp)
    have hbody : (l ++ ['\n']) ++ ls.flatMap (fun x => x ++ ['\n']) =
        l ++ '\n' :: ls.flatMap (fun x => x ++ ['\n']) := by
      simp
    rw [List.flatMap_cons, hbody,
      relayLoop_step maxScanTokenSize l [] _ hn (by simpa using hlen),
      ih (fun x hx => h x (by simp [hx]))]
    simp [dropCRL_no_cr l hcr]

/-- Claim C4 counterexample: the claim quantifies over every newline
delimited upstream body, but a single line of maxScanTokenSize bytes
overflows the scanner buffer set at main.go line 196, so nothing is written
for it; and a line ending in a carriage return is written without that
carriage return, not followed by exactly one newline. -/
theorem claim_C4_counterexample :
    ('\n' ∉ List.replicate maxScanTokenSize 'a' ∧
      (List.replicate maxScanTokenSize 'a').getLast? ≠ some '\r') ∧
    relayStream ⟨[List.replicate maxScanTokenSize 'a'].flatMap (fun l => l ++ ['\n'])⟩ ≠
      [List.replicate maxScanTokenSize 'a'].flatMap
        (fun l => [ClientEvent.write ⟨l ++ ['\n']⟩, ClientEvent.flush]) ∧
    ('\n' ∉ (['x', '\r'] : List Char) ∧ (['x', '\r'] : List Char).length < maxScanTokenSize) ∧
    relayStream ⟨[(['x', '\r'] : List Char)].flatMap (fun l => l ++ ['\n'])⟩ ≠
      [(['x', '\r'] : List Char)].flatMap
        (fun l => [ClientEvent.write ⟨l ++ ['\n']⟩, ClientEvent.flush]) := by
  refine ⟨⟨?_, ?_⟩, ?_, by decide, by decide⟩
  · intro hmem
    exact absurd (List.mem_replicate.mp hmem).2 (by decide)
  · rw [show maxScanTokenSize = 10485759 + 1 from by norm_num [maxScanTokenSize],
      List.replicate_succ', getLast_concat_char]
    decide
  · have htoolong : ∀ (n : Nat) (acc : List Char), maxScanTokenSize ≤ n + acc.length →
        relayLoop maxScanTokenSize (List.replicate n 'a' ++ ['\n']) acc = [] := by
      intro n
      induction n with
      | zero =>
        intro acc h
        simp only [Nat.zero_add] at h
        simp only [List.replicate, List.nil_append, relayLoop]
        rw [if_pos h]
      | succ m ihm =>
        intro acc h
        by_cases hb : maxScanTokenSize ≤ acc.length
        · simp only [List.replicate_succ, List.cons_append, relayLoop]
          rw [if_pos hb]
        · simp only [List.replicate_succ, List.cons_append, relayLoop]
          rw [if_neg hb, if_neg (by decide : ¬ (('a' : Char) = '\n'))]
          exact ihm ('a' :: acc) (by simp; omega)
    have hz := htoolong maxScanTokenSize [] (by simp)
    simp only [List.flatMap_cons, List.flatMap_nil, List.append_nil, relayStream]
    intro hcontra
    rw [hz] at hcontra
    exact List.noConfusion hcontra.symm

/-- Claim C4 (amended): for an upstream body of newline-delimited lines in
which no line ends in a carriage return or reaches the 10 MiB scanner
buffer ceiling, the relay writes each line in upstream order, each followed
by exactly one newline, with a flush immediately after each line and no
batching or reordering. -/
theorem claim_C4 (lines : List (List Char))
    (h : ∀ l ∈ lines, '\n' ∉ l ∧ l.getLast? ≠ some '\r' ∧ l.length < maxScanTokenSize) :
    relayStream ⟨lines.flatMap (fun l => l ++ ['\n'])⟩ =
      lines.flatMap (fun l => [ClientEvent.write ⟨l ++ ['\n']⟩, ClientEvent.flush]) :=
  relayLoop_lines lines h

theorem claim_C4_witness :
    (∀ l ∈ ([['a'], ['b'], ['c']] : List (List Char)),
      '\n' ∉ l ∧ l.getLast? ≠ some '\r' ∧ l.length < maxScanTokenSize) ∧
    relayStream ⟨([['a'], ['b'], ['c']] : List (List Char)).flatMap (fun l => l ++ ['\n'])⟩ =
      ([['a'], ['b'], ['c']] : List (List Char)).flatMap
        (fun l => [ClientEvent.write ⟨l ++ ['\n']⟩, ClientEvent.flush]) :=
  ⟨by decide, claim_C4 [['a'], ['b'], ['c']] (by decide)⟩
